import Mathlib

/-!
Iridium core: shallow embedding and verification.

A shallow embedding of the Iridium core (connection lifecycle manager,
document lifecycle pipeline, model cache) together with proofs of the
specified properties.  Definitions follow the TypeScript source:
`Core` (connection management and URL building), `ModelHandlers`
(document pipelines) and `ModelCache` (per-model cache policy layer).
-/

set_option maxHeartbeats 1000000

namespace Iridium

/-- Decidable equality for `Except`, used to evaluate concrete runs. -/
instance {ε α : Type} [DecidableEq ε] [DecidableEq α] :
    DecidableEq (Except ε α) := fun
  | .ok a, .ok b =>
    if h : a = b then .isTrue (by rw [h])
    else .isFalse (by intro hEq; cases hEq; exact h rfl)
  | .ok _, .error _ => .isFalse (fun h => Except.noConfusion h)
  | .error _, .ok _ => .isFalse (fun h => Except.noConfusion h)
  | .error a, .error b =>
    if h : a = b then .isTrue (by rw [h])
    else .isFalse (by intro hEq; cases hEq; exact h rfl)

/-- Error values observable by callers of the asynchronous operations. -/
inductive Err where
  /-- `ValidationFailed`: a document failed its validation rule set. -/
  | validation (detail : String)
  /-- JavaScript `TypeError` raised by calling an absent (undefined) hook. -/
  | typeError
  /-- A user-supplied hook rejected. -/
  | hookFailure (msg : String)
  /-- The underlying driver connect (or target resolution) failed. -/
  | connectFailure (msg : String)
  /-- `url` getter: neither a URL nor a configuration was provided. -/
  | noUrlOrConfig
  deriving DecidableEq, Repr

/-! ## Configuration and connection-target resolution (`Core.url`) -/

/-- An entry of the `hosts` list of a configuration: an address with an
optional port of its own. -/
structure HostEntry where
  address : String
  port : Option Nat
  deriving DecidableEq, Repr

/-- The structured connection configuration consumed by `Core.url`
(credentials, a single host, a shared port, additional hosts, database). -/
structure Configuration where
  username : Option String := none
  password : Option String := none
  host : Option String := none
  port : Option Nat := none
  hosts : Option (List HostEntry) := none
  database : Option String := none
  deriving DecidableEq, Repr

/-- JavaScript truthiness of an optional string (`undefined` and `""` are
falsy). -/
def truthyStr : Option String → Bool
  | none => false
  | some s => s ≠ ""

/-- JavaScript truthiness of an optional number (`undefined` and `0` are
falsy). -/
def truthyNat : Option Nat → Bool
  | none => false
  | some n => n ≠ 0

/-- The host strings contributed by the single configured `host` field:
`host:port` when the shared port is truthy, else the bare host
(source: `Core.url`, the `if (this._config.host)` block). -/
def mainHost (cfg : Configuration) : List String :=
  match cfg.host with
  | none => []
  | some h =>
    if h = "" then []
    else
      match cfg.port with
      | some p => if p = 0 then [h] else [h ++ ":" ++ toString p]
      | none => [h]

/-- The host string contributed by one entry of the `hosts` list: its own
port when truthy, else the shared configured port when truthy, else the
bare address (source: `Core.url`, the `_.each(this._config.hosts, ...)`
block). -/
def extraHost (cfg : Configuration) (h : HostEntry) : String :=
  match h.port with
  | some p =>
    if p = 0 then extraHostShared cfg h else h.address ++ ":" ++ toString p
  | none => extraHostShared cfg h
where
  /-- Fallback when the entry has no truthy port of its own. -/
  extraHostShared (cfg : Configuration) (h : HostEntry) : String :=
    match cfg.port with
    | some q => if q = 0 then h.address else h.address ++ ":" ++ toString q
    | none => h.address

/-- Lodash `_.uniq`: order-preserving de-duplication keeping the first
occurrence of each element. -/
def uniqAux : List String → List String → List String
  | [], _ => []
  | x :: xs, seen =>
    if x ∈ seen then uniqAux xs seen else x :: uniqAux xs (x :: seen)

/-- Order-preserving de-duplication (first occurrences kept), as `_.uniq`. -/
def uniq (l : List String) : List String := uniqAux l []

/-- The credential segment of the built URL: present only when the username
is truthy; the password is appended only when it is also truthy. -/
def credSegment (cfg : Configuration) : String :=
  match cfg.username with
  | none => ""
  | some u =>
    if u = "" then ""
    else
      u ++
        (match cfg.password with
         | none => ""
         | some p => if p = "" then "" else ":" ++ p) ++ "@"

/-- The host segment of the built URL: the de-duplicated joined host list,
or the default `localhost` when no host string was accumulated. -/
def hostSegment (cfg : Configuration) : String :=
  let hs := mainHost cfg ++
    (match cfg.hosts with
     | none => []
     | some l => l.map (extraHost cfg))
  if hs.isEmpty then "localhost" else String.intercalate "," (uniq hs)

/-- The database segment of the built URL: `/name` only when a database
name is configured (truthy). -/
def dbSegment (cfg : Configuration) : String :=
  match cfg.database with
  | none => ""
  | some d => if d = "" then "" else "/" ++ d

/-- `Core.url`: returns the literal URL when one is truthy, otherwise
builds `mongodb://[user[:password]@]hosts[/database]` from the
configuration, or fails when neither is available. -/
def coreUrl (u : Option String) (cfg? : Option Configuration) : Except Err String :=
  if truthyStr u then .ok (u.getD "")
  else
    match cfg? with
    | none => .error .noUrlOrConfig
    | some cfg =>
      .ok ("mongodb://" ++ credSegment cfg ++ hostSegment cfg ++ dbSegment cfg)

/-! ## Connection lifecycle (`Core.connect` / `Core.close`)

The manager's mutable state is the pair of nullable fields
`_connection` and `_connectPromise`.  A `connect()` call is split as in
the source: a first synchronous step that inspects the state (and, when
nothing is established or in flight, issues the one underlying driver
connect and stores the in-flight promise), followed by the continuation
chain `onConnecting` / store connection / `onConnected` / resolve self,
with the shared rejection handler that closes any partially established
connection and clears both fields. -/

/-- An established driver connection handle (opaque; modelled by an id). -/
abbrev Db := Nat

/-- Identifier of one in-flight connection attempt (the promise stored in
`_connectPromise`). -/
abbrev AttemptId := Nat

/-- The manager's connection state: the `_connection` and `_connectPromise`
fields of `Core`. -/
structure CoreState where
  connection : Option Db
  connectPromise : Option AttemptId
  deriving DecidableEq, Repr

/-- What the first synchronous step of a `connect()` call did. -/
inductive FirstStepAction where
  /-- `_connection` was set: reuse the established connection. -/
  | useConnection (db : Db)
  /-- `_connectPromise` was set: join the in-flight attempt. -/
  | joinAttempt (a : AttemptId)
  /-- Neither was set: issue a new underlying driver connect. -/
  | issueConnect (a : AttemptId)
  deriving DecidableEq, Repr

/-- The first step of `Core.connect` (lines `if (this._connection) ...`
`if (this._connectPromise) ...` `return this._connectPromise = ...`):
reuse the established connection, join the in-flight attempt, or issue a
fresh underlying connect and record it in `_connectPromise`. -/
def connectFirstStep (s : CoreState) (fresh : AttemptId) :
    CoreState × FirstStepAction :=
  match s.connection with
  | some db => (s, .useConnection db)
  | none =>
    match s.connectPromise with
    | some a => (s, .joinAttempt a)
    | none => ({ s with connectPromise := some fresh }, .issueConnect fresh)

/-- Whether the first step issued a new underlying connect operation. -/
def FirstStepAction.isIssue : FirstStepAction → Bool
  | .issueConnect _ => true
  | _ => false

/-- Run the first synchronous steps of a group of concurrent `connect()`
calls, in order, threading the manager state. -/
def runFirstSteps (s : CoreState) : List AttemptId → CoreState × List FirstStepAction
  | [] => (s, [])
  | id :: ids =>
    let p := connectFirstStep s id
    let q := runFirstSteps p.1 ids
    (q.1, p.2 :: q.2)

/-- Environment of one `connect()` run: the outcome of the underlying
driver connect attempt (also covering a throw during target resolution,
which rejects the same first stage) and the behaviour of the two
overridable hooks. -/
structure ConnectEnv where
  attemptOutcome : Except Err Db
  onConnecting : Db → Except Err Db
  onConnected : Except Err Unit

/-- The value a `connect()` call resolves or rejects with. -/
inductive ConnectResult where
  /-- The call resolved with `self`, the manager instance. -/
  | resolvedSelf
  /-- The call rejected with this error. -/
  | failed (e : Err)
  deriving DecidableEq, Repr

/-- Observable trace of the continuation chain of one `connect()` call. -/
structure ContTrace where
  onConnectingCalls : List Db
  onConnectedCalls : Nat
  closed : List Db
  state : CoreState
  result : ConnectResult
  deriving DecidableEq, Repr

/-- The rejection handler of `Core.connect`: close `_connection` if set,
clear both fields, and reject with the original error. -/
def connectFailPath (s : CoreState) (e : Err) (calls : List Db) (ncalls : Nat) :
    ContTrace :=
  { onConnectingCalls := calls
    onConnectedCalls := ncalls
    closed := s.connection.toList
    state := ⟨none, none⟩
    result := .failed e }

/-- The continuation chain of `Core.connect` after the first step, given
the outcome `dbRes` of that step's promise: run `onConnecting`, store the
established connection and clear the in-flight marker, run `onConnected`,
and resolve with `self`; any rejection flows into `connectFailPath`. -/
def connectCont (s : CoreState) (env : ConnectEnv) (dbRes : Except Err Db) :
    ContTrace :=
  match dbRes with
  | .error e => connectFailPath s e [] 0
  | .ok db =>
    match env.onConnecting db with
    | .error e => connectFailPath s e [db] 0
    | .ok db' =>
      match env.onConnected with
      | .error e => connectFailPath ⟨some db', none⟩ e [db] 1
      | .ok _ =>
        { onConnectingCalls := [db]
          onConnectedCalls := 1
          closed := []
          state := ⟨some db', none⟩
          result := .resolvedSelf }

/-- The outcome flowing out of the first step's promise: the established
connection when one was reused, otherwise the in-flight attempt's
outcome. -/
def dbOutcome (env : ConnectEnv) (act : FirstStepAction) : Except Err Db :=
  match act with
  | .useConnection db => .ok db
  | .joinAttempt _ => env.attemptOutcome
  | .issueConnect _ => env.attemptOutcome

/-- One full `connect()` call, run to completion without interleaving:
the first step followed by its continuation chain.  Returns whether a new
underlying connect was issued, together with the continuation trace. -/
def connectRun (s : CoreState) (env : ConnectEnv) (fresh : AttemptId) :
    Bool × ContTrace :=
  let p := connectFirstStep s fresh
  (p.2.isIssue, connectCont p.1 env (dbOutcome env p.2))

/-- Observable events of one `close()` call, in program order. -/
inductive CloseEvent where
  /-- The `_connection` field was cleared. -/
  | cleared
  /-- The underlying connection was released (`conn.close()`), with the
  release's asynchronous outcome, which the code discards. -/
  | released (db : Db) (outcome : Except Err Unit)
  deriving DecidableEq, Repr

/-- `Core.close`: resolve with `self` as a no-op when no connection is
established; otherwise clear `_connection` first, then release the
underlying connection (its outcome `rel db` is discarded), and resolve
with `self`. -/
def closeRun (s : CoreState) (rel : Db → Except Err Unit) :
    CoreState × List CloseEvent × ConnectResult :=
  match s.connection with
  | none => (s, [], .resolvedSelf)
  | some conn =>
    ({ s with connection := none }, [.cleared, .released conn (rel conn)],
      .resolvedSelf)

/-! ## Documents, the cache director and the model cache -/

/-- A raw document value: a JSON-like structured record. -/
inductive JsonVal where
  | null
  | bool (b : Bool)
  | num (n : Int)
  | str (s : String)
  | arr (elems : List JsonVal)
  | obj (fields : List (String × JsonVal))
  deriving Repr

mutual

/-- Lodash `_.cloneDeep`: a structurally recursive copy of the value. -/
def cloneDeep : JsonVal → JsonVal
  | .null => .null
  | .bool b => .bool b
  | .num n => .num n
  | .str s => .str s
  | .arr elems => .arr (cloneList elems)
  | .obj fields => .obj (cloneFields fields)

/-- Deep-copy of an array's elements. -/
def cloneList : List JsonVal → List JsonVal
  | [] => []
  | v :: vs => cloneDeep v :: cloneList vs

/-- Deep-copy of an object's fields. -/
def cloneFields : List (String × JsonVal) → List (String × JsonVal)
  | [] => []
  | (k, v) :: fs => (k, cloneDeep v) :: cloneFields fs

end

/-- The per-model cache policy (`CacheDirector`): cacheability predicates
and key derivations for documents and queries. -/
structure CacheDirector where
  valid : JsonVal → Bool
  buildKey : JsonVal → String
  validQuery : JsonVal → Bool
  buildQueryKey : JsonVal → String

/-- Modelled from the spec: the in-process map cache reference
implementation (`MemoryCache`, whose source file is not part of the
provided sources) — an exact in-memory echo with no expiry: `set` stores
the value under the key and resolves with the value, `get` returns the
most recently stored value for the key. -/
abbrev MemCache := List (String × JsonVal)

/-- Modelled from the spec: `MemoryCache.get` — the most recently stored
value for the key, if any. -/
def memGet : MemCache → String → Option JsonVal
  | [], _ => none
  | (k, v) :: rest, key => if k = key then some v else memGet rest key

/-- Modelled from the spec: `MemoryCache.set` — store the value under the
key (later entries shadow earlier ones). -/
def memSet (st : MemCache) (key : String) (v : JsonVal) : MemCache :=
  (key, v) :: st

/-- `ModelCache.set` over the in-process map cache: a no-op resolving with
the input when there is no director or the director marks the document
non-cacheable; otherwise writes `(buildKey value, value)` to the cache and
resolves with the cache's `set` result (the value). -/
def modelCacheSet (dir? : Option CacheDirector) (st : MemCache) (v : JsonVal) :
    MemCache × JsonVal :=
  match dir? with
  | none => (st, v)
  | some dir =>
    if dir.valid v then (memSet st (dir.buildKey v) v, v) else (st, v)

/-- `ModelCache.get` over the in-process map cache: resolves with the empty
result when there is no director or the director marks the query
non-cacheable, regardless of the cache's contents; otherwise reads the
cache at `buildQueryKey conditions`. -/
def modelCacheGet (dir? : Option CacheDirector) (st : MemCache) (conds : JsonVal) :
    Option JsonVal :=
  match dir? with
  | none => none
  | some dir =>
    if dir.validQuery conds then memGet st (dir.buildQueryKey conds) else none

/-- The underlying cache writes issued by one `ModelCache.set` call
(used by the document-received pipeline to record writes). -/
def modelCacheSetWrites (dir? : Option CacheDirector) (v : JsonVal) :
    List (String × JsonVal) :=
  match dir? with
  | none => []
  | some dir => if dir.valid v then [(dir.buildKey v, v)] else []

/-! ## The model and its lifecycle hooks -/

/-- A hook taking a document: its `Except.ok` result is the document after
any in-place mutation the hook performed; `Except.error` is a rejection. -/
abbrev DocHook := JsonVal → Except Err JsonVal

/-- The optional lifecycle hooks of a model (`model.options.hooks`).
`ready` observes the wrapped instance (document, isNew, isPartial) and may
reject; its resolution value is discarded. -/
structure Hooks where
  retrieved : Option DocHook := none
  creating : Option DocHook := none
  ready : Option (JsonVal × Bool × Bool → Except Err Unit) := none
  saving : Option (JsonVal → JsonVal → Except Err Unit) := none

/-- The outcome of `helpers.validate`: a failure flag with error detail. -/
structure ValidationResult where
  failed : Bool
  error : String
  deriving DecidableEq, Repr

/-- The per-model data the pipelines consult: hooks, the validator, the
optional cache director, whether the owning core has a (truthy) configured
cache, and whether the model's wrapper produces values satisfying the
`instanceof this.model.Instance` test. -/
structure Model where
  hooks : Hooks
  validate : JsonVal → ValidationResult
  cacheDirector : Option CacheDirector := none
  coreHasCache : Bool := true
  wrapIsInstance : Bool := true

/-! ## Document lifecycle pipelines (`ModelHandlers`) -/

/-- The caller-supplied query options of `documentReceived`; absent fields
are `none` (the source fills `cache` and `partial` by `_.defaults`).  The
source's `partial` field is named `treatAsPartial` here. -/
structure QueryOptions where
  cache : Option Bool := none
  treatAsPartial : Option Bool := none
  fields : Option (List String) := none

/-- The effect of the `retrieved` hook stage on the in-flight document:
identity when no hook is configured, else the hook's in-place mutation or
rejection (`if (this.model.options.hooks.retrieved) return ...`). -/
def retrievedStage (m : Model) (doc : JsonVal) : Except Err JsonVal :=
  match m.hooks.retrieved with
  | some f => f doc
  | none => .ok doc

/-- Observable trace of one `documentReceived` pipeline run. -/
structure ReceivedTrace where
  /-- Documents the `retrieved` hook was invoked on. -/
  retrievedCalls : List JsonVal
  /-- `(key, value)` writes issued to the underlying cache. -/
  cacheWrites : List (String × JsonVal)
  /-- Arguments `(document, isNew, isPartial)` passed to the wrapper, when
  the pipeline reached the wrapping step. -/
  wrapArgs : Option (JsonVal × Bool × Bool)
  /-- Number of `ready` hook invocations. -/
  readyCalls : Nat
  /-- The run's outcome: the wrapped value, or the rejection. -/
  outcome : Except Err (JsonVal × Bool × Bool)

/-- `ModelHandlers.documentReceived`: apply the option defaults
(`cache: true`, `partial: false`), run the `retrieved` hook, write a deep
copy of the document through the model cache when the core has a cache,
the (defaulted) `cache` option is truthy and no `fields` projection is
present, wrap the document with `isNew = false` and
`isPartial = !!options.fields`, and run the `ready` hook on instances. -/
def documentReceived (m : Model) (doc : JsonVal) (opts : QueryOptions) :
    ReceivedTrace :=
  let cacheOpt := opts.cache.getD true
  let retrievedCalls := if m.hooks.retrieved.isSome then [doc] else []
  match retrievedStage m doc with
  | .error e =>
    { retrievedCalls := retrievedCalls
      cacheWrites := []
      wrapArgs := none
      readyCalls := 0
      outcome := .error e }
  | .ok t =>
    let writes :=
      if m.coreHasCache && cacheOpt && opts.fields.isNone then
        modelCacheSetWrites m.cacheDirector (cloneDeep t)
      else []
    let w : JsonVal × Bool × Bool := (t, false, opts.fields.isSome)
    let readyRes : Nat × Except Err (JsonVal × Bool × Bool) :=
      match m.hooks.ready with
      | some r =>
        if m.wrapIsInstance then
          match r w with
          | .error e => (1, .error e)
          | .ok _ => (1, .ok w)
        else (0, .ok w)
      | none => (0, .ok w)
    { retrievedCalls := retrievedCalls
      cacheWrites := writes
      wrapArgs := some w
      readyCalls := readyRes.1
      outcome := readyRes.2 }

/-- The hook stage of one branch of `creatingDocuments` as written in the
source: the guard tests `hooks.retrieved` while the call is to
`hooks.creating`, so the creating hook runs only when a `retrieved` hook
is configured, and its absence then raises a `TypeError` (calling
`undefined`). -/
def creatingHookStage (m : Model) (doc : JsonVal) : Except Err JsonVal :=
  if m.hooks.retrieved.isSome then
    match m.hooks.creating with
    | some f => f doc
    | none => .error .typeError
  else .ok doc

/-- One branch of `ModelHandlers.creatingDocuments`: the hook stage
followed by validation; a validation failure rejects this branch with
`ValidationFailed` carrying the validator's error detail, else the branch
resolves with the (possibly hook-mutated) document. -/
def creatingBranch (m : Model) (doc : JsonVal) : Except Err JsonVal :=
  (creatingHookStage m doc).bind fun d =>
    let v := m.validate d
    if v.failed then .error (.validation v.error) else .ok d

/-- `ModelHandlers.creatingDocuments` at the level of its independent
per-document branches (the source maps each document to its own promise
chain before aggregating with `Bluebird.all`). -/
def creatingDocuments (m : Model) (docs : List JsonVal) :
    List (Except Err JsonVal) :=
  docs.map (creatingBranch m)

/-- `ModelHandlers.savingDocument`: run the `saving` hook when configured
and resolve with the instance unchanged. -/
def savingDocument (m : Model) (instanceDoc : JsonVal) (changes : JsonVal) :
    Except Err JsonVal :=
  (match m.hooks.saving with
   | some f => f instanceDoc changes
   | none => .ok ()).bind fun _ => .ok instanceDoc

/-- Replace a model's `ready` hook (used to state that the cache write is
independent of anything the `ready` stage later does to the document). -/
def readySwap (m : Model) (r : Option (JsonVal × Bool × Bool → Except Err Unit)) :
    Model :=
  { m with hooks := { m.hooks with ready := r } }

/-! ## Concrete fixtures used to evaluate the definitions -/

/-- A connect environment where the driver connect yields connection `5`
and both hooks succeed without replacing the connection. -/
def envOk : ConnectEnv :=
  { attemptOutcome := .ok 5
    onConnecting := fun d => .ok d
    onConnected := .ok () }

/-- A connect environment whose `onConnected` hook rejects after the
connection was established. -/
def envFail : ConnectEnv :=
  { attemptOutcome := .ok 5
    onConnecting := fun d => .ok d
    onConnected := .error (.hookFailure "boom") }

/-- A validator that accepts every document. -/
def validatePass : JsonVal → ValidationResult := fun _ => ⟨false, ""⟩

/-- A validator that rejects exactly the document `2`. -/
def validateNotTwo : JsonVal → ValidationResult := fun d =>
  match d with
  | .num 2 => ⟨true, "second failed"⟩
  | _ => ⟨false, ""⟩

/-- A model with no hooks whose validator rejects exactly the document
`2`. -/
def mPlain : Model := { hooks := {}, validate := validateNotTwo }

/-- A hook that replaces the document by the given string. -/
def hookToStr (s : String) : DocHook := fun _ => .ok (.str s)

/-- A model with only a `creating` hook configured. -/
def mCreatingOnly : Model :=
  { hooks := { creating := some (hookToStr "hooked") }, validate := validatePass }

/-- A model with only a `retrieved` hook configured. -/
def mRetrievedOnly : Model :=
  { hooks := { retrieved := some fun d => .ok d }, validate := validatePass }

/-- A cache director that marks everything cacheable under the constant
key `"key"`. -/
def dirW : CacheDirector :=
  { valid := fun _ => true
    buildKey := fun _ => "key"
    validQuery := fun _ => true
    buildQueryKey := fun _ => "key" }

/-- A hookless model on a core with a cache, using `dirW` as director. -/
def mCache : Model :=
  { hooks := {}
    validate := validatePass
    cacheDirector := some dirW
    coreHasCache := true }

/-- A sample document. -/
def docW : JsonVal := .obj [("x", .num 1)]

/-- A release function modelling a failing underlying `conn.close()`. -/
def relFail : Db → Except Err Unit := fun _ => .error (.connectFailure "release failed")

/-! ## Theorems -/

mutual

/-- A deep copy is (value-)equal to the original; in the embedding the
point of the copy is that the cache stores the value as of copy time,
not a live reference. -/
theorem cloneDeep_eq : ∀ (v : JsonVal), cloneDeep v = v
  | .null => rfl
  | .bool _ => rfl
  | .num _ => rfl
  | .str _ => rfl
  | .arr elems => congrArg JsonVal.arr (cloneList_eq elems)
  | .obj fields => congrArg JsonVal.obj (cloneFields_eq fields)

/-- Deep-copying a list of values is the identity. -/
theorem cloneList_eq : ∀ (l : List JsonVal), cloneList l = l
  | [] => rfl
  | v :: vs => congrArg₂ List.cons (cloneDeep_eq v) (cloneList_eq vs)

/-- Deep-copying an object's field list is the identity. -/
theorem cloneFields_eq : ∀ (l : List (String × JsonVal)), cloneFields l = l
  | [] => rfl
  | (k, v) :: fs =>
    congrArg₂ List.cons (congrArg (Prod.mk k) (cloneDeep_eq v)) (cloneFields_eq fs)

end

/-- With an attempt already in flight, every further concurrent first step
joins that attempt and leaves the state unchanged. -/
theorem runFirstSteps_inflight (a : AttemptId) (ids : List AttemptId) :
    runFirstSteps ⟨none, some a⟩ ids =
      (⟨none, some a⟩, ids.map fun _ => .joinAttempt a) := by
  induction ids with
  | nil => rfl
  | cons id ids ih => simp [runFirstSteps, connectFirstStep, ih]

/-- From a disconnected, idle manager, the first caller issues the one
underlying connect and every further concurrent caller joins it. -/
theorem runFirstSteps_fresh (a : AttemptId) (ids : List AttemptId) :
    runFirstSteps ⟨none, none⟩ (a :: ids) =
      (⟨none, some a⟩, .issueConnect a :: ids.map fun _ => .joinAttempt a) := by
  simp [runFirstSteps, connectFirstStep, runFirstSteps_inflight]

/-- Join actions are not issue actions. -/
theorem filter_isIssue_join (a : AttemptId) (ids : List AttemptId) :
    ((ids.map fun _ => FirstStepAction.joinAttempt a).filter
      FirstStepAction.isIssue) = [] := by
  induction ids with
  | nil => rfl
  | cons id ids ih => simp [FirstStepAction.isIssue, ih]

/-- C8 counterexample: a manager constructed with the literal connection
string `""` (and no configuration) does not resolve the target to `""`:
the empty string is falsy, so `Core.url` falls through and throws
`"No URL or configuration provided"`. -/
theorem url_literal_empty_cex :
    coreUrl (some "") none = .error .noUrlOrConfig ∧
      coreUrl (some "") none ≠ .ok "" := by
  constructor
  · rfl
  · intro h
    exact Except.noConfusion h

/-- C8 (amended): for every manager constructed with a *nonempty* literal
connection string the target resolution returns exactly that string,
ignoring all structured configuration; otherwise the target is
`mongodb://` followed by the credential segment (present only with a
truthy username, password only if also truthy), the de-duplicated
order-preserving host list (a `hosts` entry uses its own port, else the
shared port, else no port; no accumulated host falls back to `localhost`
with no port), and the database segment only if a database is
configured. -/
theorem url_target_resolution (s u' p' d' : String) (cfg? : Option Configuration)
    (cfg : Configuration) (hs : s ≠ "") (hd : d' ≠ "")
    (hu : cfg.username = none) (hdb : cfg.database = none) :
    coreUrl (some s) cfg? = .ok s
    ∧ coreUrl none
        (some { port := some 2, hosts := some [⟨"a", some 1⟩, ⟨"b", none⟩] }) =
        .ok "mongodb://a:1,b:2"
    ∧ coreUrl none (some {}) = .ok "mongodb://localhost"
    ∧ coreUrl none
        (some { host := some "a", port := some 1,
                hosts := some [⟨"a", some 1⟩, ⟨"b", none⟩] }) =
        .ok "mongodb://a:1,b:1"
    ∧ credSegment cfg = ""
    ∧ dbSegment cfg = ""
    ∧ credSegment { cfg with username := some u', password := some p' } =
        (if u' = "" then "" else u' ++ (if p' = "" then "" else ":" ++ p') ++ "@")
    ∧ dbSegment { cfg with database := some d' } = "/" ++ d'
    ∧ coreUrl none (some cfg) =
        .ok ("mongodb://" ++ credSegment cfg ++ hostSegment cfg ++ dbSegment cfg) := by
  refine ⟨?_, by decide, by decide, by decide, ?_, ?_, ?_, ?_, ?_⟩
  · simp [coreUrl, truthyStr, hs]
  · simp [credSegment, hu]
  · simp [dbSegment, hdb]
  · simp [credSegment]
  · simp [dbSegment, hd]
  · simp [coreUrl, truthyStr]

/-- C8 witness: the amended target-resolution theorem evaluated at a
concrete nonempty literal string and the empty configuration. -/
theorem url_target_resolution_witness :
    coreUrl (some "mongodb://x") none = .ok "mongodb://x"
    ∧ coreUrl none
        (some { port := some 2, hosts := some [⟨"a", some 1⟩, ⟨"b", none⟩] }) =
        .ok "mongodb://a:1,b:2"
    ∧ coreUrl none (some {}) = .ok "mongodb://localhost"
    ∧ coreUrl none
        (some { host := some "a", port := some 1,
                hosts := some [⟨"a", some 1⟩, ⟨"b", none⟩] }) =
        .ok "mongodb://a:1,b:1"
    ∧ credSegment {} = ""
    ∧ dbSegment {} = ""
    ∧ credSegment { username := some "u", password := some "p" } =
        (if "u" = "" then ""
         else "u" ++ (if "p" = "" then "" else ":" ++ "p") ++ "@")
    ∧ dbSegment { database := some "db" } = "/" ++ "db"
    ∧ coreUrl none (some {}) =
        .ok ("mongodb://" ++ credSegment {} ++ hostSegment {} ++ dbSegment {}) :=
  url_target_resolution "mongodb://x" "u" "p" "db" none {}
    (by decide) (by decide) rfl rfl

/-- The first synchronous step of `connect()` never changes the
`_connection` field. -/
theorem connectFirstStep_connection (s : CoreState) (fresh : AttemptId) :
    (connectFirstStep s fresh).1.connection = s.connection := by
  cases hc : s.connection with
  | some db => simp [connectFirstStep, hc]
  | none => cases hp : s.connectPromise <;> simp [connectFirstStep, hc, hp]

/-- C1: for a group of concurrent `connect()` calls on a disconnected,
idle manager whose first steps all run before any attempt resolves,
exactly one underlying connect operation is issued, every other caller
joins that same attempt, and (when the attempt and both hooks succeed)
every caller's continuation resolves with `self`, the one manager
instance. -/
theorem connect_single_flight (a : AttemptId) (ids : List AttemptId)
    (env : ConnectEnv) (s : CoreState) (db db' : Db) (act : FirstStepAction)
    (hdb : env.attemptOutcome = .ok db)
    (hconn : env.onConnecting db = .ok db')
    (hconnd : env.onConnected = .ok ())
    (hact : act ∈ (runFirstSteps ⟨none, none⟩ (a :: ids)).2) :
    ((runFirstSteps ⟨none, none⟩ (a :: ids)).2.filter
        FirstStepAction.isIssue).length = 1
    ∧ (runFirstSteps ⟨none, none⟩ (a :: ids)).2 =
        .issueConnect a :: (ids.map fun _ => .joinAttempt a)
    ∧ (connectCont s env (dbOutcome env act)).result = .resolvedSelf := by
  have hrun := runFirstSteps_fresh a ids
  refine ⟨?_, ?_, ?_⟩
  · rw [hrun]
    simp [List.filter, FirstStepAction.isIssue, filter_isIssue_join]
  · rw [hrun]
  · rw [hrun] at hact
    have hout : dbOutcome env act = env.attemptOutcome := by
      rcases List.mem_cons.mp hact with h | h
      · subst h; rfl
      · rcases List.mem_map.mp h with ⟨x, _, hx⟩
        subst hx
        rfl
    rw [hout, hdb]
    simp [connectCont, hconn, hconnd]

/-- C1 witness: three concurrent `connect()` calls on a fresh manager;
the first issues the one attempt, the others join it, and a joiner's
continuation resolves with `self` once the attempt succeeds. -/
theorem connect_single_flight_witness :
    ((runFirstSteps ⟨none, none⟩ [0, 1, 2]).2.filter
        FirstStepAction.isIssue).length = 1
    ∧ (runFirstSteps ⟨none, none⟩ [0, 1, 2]).2 =
        .issueConnect 0 :: ([1, 2].map fun _ => .joinAttempt 0)
    ∧ (connectCont ⟨none, some 0⟩ envOk (dbOutcome envOk (.joinAttempt 0))).result =
        .resolvedSelf :=
  connect_single_flight 0 [1, 2] envOk ⟨none, some 0⟩ 5 5 (.joinAttempt 0)
    rfl rfl rfl (by decide)

/-- C4 counterexample: a `connect()` call on an already-connected manager
(established connection `7`) does invoke the `onConnecting` and
`onConnected` hooks again, contrary to the claim that they are not
invoked: the source's continuation chain runs unconditionally on the
value returned by the first step, even when that value is the already
established connection. -/
theorem connect_when_connected_cex :
    ¬((connectRun ⟨some 7, none⟩ envOk 0).2.onConnectingCalls = []
      ∧ (connectRun ⟨some 7, none⟩ envOk 0).2.onConnectedCalls = 0) := by
  decide

/-- C4 (amended): a `connect()` call on a manager with an established
connection issues no new underlying connect operation and resolves with
the manager itself, but it does invoke `onConnecting` again (passing the
established connection, whose result replaces the stored connection) and
`onConnected` again. -/
theorem connect_when_connected (s : CoreState) (env : ConnectEnv)
    (fresh : AttemptId) (db db' : Db)
    (hs : s.connection = some db)
    (hconn : env.onConnecting db = .ok db')
    (hconnd : env.onConnected = .ok ()) :
    (connectRun s env fresh).1 = false
    ∧ (connectRun s env fresh).2.result = .resolvedSelf
    ∧ (connectRun s env fresh).2.onConnectingCalls = [db]
    ∧ (connectRun s env fresh).2.onConnectedCalls = 1
    ∧ (connectRun s env fresh).2.state = ⟨some db', none⟩ := by
  simp [connectRun, connectFirstStep, hs, FirstStepAction.isIssue, dbOutcome,
    connectCont, hconn, hconnd]

/-- C4 witness: the amended already-connected behaviour at connection `7`
with hooks that succeed without replacing the connection. -/
theorem connect_when_connected_witness :
    (connectRun ⟨some 7, none⟩ envOk 0).1 = false
    ∧ (connectRun ⟨some 7, none⟩ envOk 0).2.result = .resolvedSelf
    ∧ (connectRun ⟨some 7, none⟩ envOk 0).2.onConnectingCalls = [7]
    ∧ (connectRun ⟨some 7, none⟩ envOk 0).2.onConnectedCalls = 1
    ∧ (connectRun ⟨some 7, none⟩ envOk 0).2.state = ⟨some 7, none⟩ :=
  connect_when_connected ⟨some 7, none⟩ envOk 0 7 7 rfl rfl rfl

/-- C5: a `connect()` call that fails at any step of its chain (the
underlying connect attempt — which also covers a throw during target
resolution — `onConnecting`, or `onConnected`) rejects with the original
error, clears both the established-connection and in-flight-attempt
state, and closes exactly the connection that was established at failure
time (`cl`); from the cleared state a subsequent `connect()` issues a
fresh underlying attempt. -/
theorem connect_failure_cleanup (s : CoreState) (env env2 : ConnectEnv)
    (fresh fresh2 : AttemptId) (e : Err) (cl : List Db)
    (hscenario :
      (dbOutcome env (connectFirstStep s fresh).2 = .error e
        ∧ cl = s.connection.toList)
      ∨ (∃ db, dbOutcome env (connectFirstStep s fresh).2 = .ok db
          ∧ env.onConnecting db = .error e ∧ cl = s.connection.toList)
      ∨ (∃ db db', dbOutcome env (connectFirstStep s fresh).2 = .ok db
          ∧ env.onConnecting db = .ok db' ∧ env.onConnected = .error e
          ∧ cl = [db'])) :
    (connectRun s env fresh).2.result = .failed e
    ∧ (connectRun s env fresh).2.state = ⟨none, none⟩
    ∧ (connectRun s env fresh).2.closed = cl
    ∧ (connectRun ⟨none, none⟩ env2 fresh2).1 = true := by
  have hpres := connectFirstStep_connection s fresh
  have key : (connectRun s env fresh).2.result = .failed e
      ∧ (connectRun s env fresh).2.state = ⟨none, none⟩
      ∧ (connectRun s env fresh).2.closed = cl := by
    rcases hscenario with ⟨hfail, hcl⟩ | ⟨db, hok, hfail, hcl⟩ |
      ⟨db, db', hok, hok2, hfail, hcl⟩
    · simp [connectRun, connectCont, hfail, connectFailPath, hcl, hpres]
    · simp [connectRun, connectCont, hok, hfail, connectFailPath, hcl, hpres]
    · simp [connectRun, connectCont, hok, hok2, hfail, connectFailPath, hcl]
  exact ⟨key.1, key.2.1, key.2.2,
    by simp [connectRun, connectFirstStep, FirstStepAction.isIssue]⟩

/-- C5 witness: a fresh attempt whose `onConnected` hook rejects closes
the just-established connection `5`, clears the state, rejects with the
hook's error, and a subsequent `connect()` issues a fresh attempt. -/
theorem connect_failure_cleanup_witness :
    (connectRun ⟨none, none⟩ envFail 0).2.result = .failed (.hookFailure "boom")
    ∧ (connectRun ⟨none, none⟩ envFail 0).2.state = ⟨none, none⟩
    ∧ (connectRun ⟨none, none⟩ envFail 0).2.closed = [5]
    ∧ (connectRun ⟨none, none⟩ envOk 1).1 = true :=
  connect_failure_cleanup ⟨none, none⟩ envFail envOk 0 1 (.hookFailure "boom")
    [5] (Or.inr (Or.inr ⟨5, 5, rfl, rfl, rfl, rfl⟩))

/-- C6: `close()` on a manager with no established connection resolves
with the manager and is a no-op, and a second `close()` behaves
identically; on a manager with an established connection it clears the
established-connection state before releasing the underlying connection,
and always resolves with the manager, whatever the release outcome
(`rel2` arbitrary — a release failure is never surfaced). -/
theorem close_noop_and_clears_first (s s2 : CoreState)
    (rel rel2 : Db → Except Err Unit) (conn : Db)
    (h1 : s.connection = none) (h2 : s2.connection = some conn) :
    closeRun s rel = (s, [], .resolvedSelf)
    ∧ closeRun (closeRun s rel).1 rel = (s, [], .resolvedSelf)
    ∧ (closeRun s2 rel2).2.2 = .resolvedSelf
    ∧ (closeRun s2 rel2).1 = { s2 with connection := none }
    ∧ (closeRun s2 rel2).2.1 = [.cleared, .released conn (rel2 conn)] := by
  have hA : closeRun s rel = (s, [], .resolvedSelf) := by
    simp [closeRun, h1]
  refine ⟨hA, ?_, ?_, ?_, ?_⟩
  · rw [hA]
    exact hA
  · simp [closeRun, h2]
  · simp [closeRun, h2]
  · simp [closeRun, h2]

/-- C6 witness: a never-connected manager (double close is a no-op) and a
connected manager whose underlying release fails; the release failure is
not surfaced. -/
theorem close_noop_and_clears_first_witness :
    closeRun ⟨none, none⟩ (fun _ => .ok ()) = (⟨none, none⟩, [], .resolvedSelf)
    ∧ closeRun (closeRun ⟨none, none⟩ (fun _ => .ok ())).1 (fun _ => .ok ()) =
        (⟨none, none⟩, [], .resolvedSelf)
    ∧ (closeRun ⟨some 3, none⟩ relFail).2.2 = .resolvedSelf
    ∧ (closeRun ⟨some 3, none⟩ relFail).1 = ⟨none, none⟩
    ∧ (closeRun ⟨some 3, none⟩ relFail).2.1 =
        [.cleared, .released 3 (relFail 3)] :=
  close_noop_and_clears_first ⟨none, none⟩ ⟨some 3, none⟩ (fun _ => .ok ())
    relFail 3 rfl rfl

/-- C2: in a creating-pipeline batch of three documents whose hook stages
succeed, a validation failure of the second document rejects only that
document's branch, with `ValidationFailed` carrying the validator's
detail; the first and third branches resolve with their documents. -/
theorem creating_validation_isolated (m : Model) (d1 d2 d3 t1 t2 t3 : JsonVal)
    (h1 : creatingHookStage m d1 = .ok t1)
    (h2 : creatingHookStage m d2 = .ok t2)
    (h3 : creatingHookStage m d3 = .ok t3)
    (v1 : (m.validate t1).failed = false)
    (v2 : (m.validate t2).failed = true)
    (v3 : (m.validate t3).failed = false) :
    creatingDocuments m [d1, d2, d3] =
      [.ok t1, .error (.validation (m.validate t2).error), .ok t3] := by
  simp [creatingDocuments, creatingBranch, h1, h2, h3, Except.bind, v1, v2, v3]

/-- C2 witness: a hookless model whose validator rejects exactly the
document `2`, on the batch `[1, 2, 3]`. -/
theorem creating_validation_isolated_witness :
    creatingDocuments mPlain [.num 1, .num 2, .num 3] =
      [.ok (.num 1), .error (.validation "second failed"), .ok (.num 3)] :=
  creating_validation_isolated mPlain (.num 1) (.num 2) (.num 3)
    (.num 1) (.num 2) (.num 3) rfl rfl rfl rfl rfl rfl

/-- C3 (code bug): the source guards the `creating`-hook invocation on
`hooks.retrieved` (`if (this.model.options.hooks.retrieved) return
this.model.options.hooks.creating(document)`), so a model with only a
`creating` hook configured never invokes it (the branch resolves with the
unmutated document), and a model with only a `retrieved` hook configured
rejects the branch with a `TypeError` by calling the absent `creating`
hook. -/
theorem creating_hook_guard_mismatch :
    creatingDocuments mCreatingOnly [.str "orig"] = [.ok (.str "orig")]
    ∧ creatingDocuments mRetrievedOnly [.str "orig"] = [.error .typeError] :=
  ⟨rfl, rfl⟩

/-- Swapping the `ready` hook does not change the `retrieved` stage. -/
theorem retrievedStage_readySwap (m : Model)
    (r : Option (JsonVal × Bool × Bool → Except Err Unit)) (doc : JsonVal) :
    retrievedStage (readySwap m r) doc = retrievedStage m doc := rfl

/-- C7: when the core has a configured cache, the caller did not disable
the `cache` option, and the read is not field-projected, the
document-received pipeline issues exactly one underlying cache write —
the deep copy (a value equal to the post-`retrieved`-hook document) under
the director's document key — and that write is independent of whatever
the later `ready` stage does; a field-projected read never writes to the
cache. -/
theorem documentReceived_cache_write (m : Model) (dir : CacheDirector)
    (doc t : JsonVal) (opts optsF : QueryOptions) (fs : List String)
    (r1 r2 : Option (JsonVal × Bool × Bool → Except Err Unit))
    (hcore : m.coreHasCache = true)
    (hdir : m.cacheDirector = some dir)
    (hcache : opts.cache ≠ some false)
    (hfields : opts.fields = none)
    (hhook : retrievedStage m doc = .ok t)
    (hvalid : dir.valid (cloneDeep t) = true)
    (hfs : optsF.fields = some fs) :
    (documentReceived m doc opts).cacheWrites = [(dir.buildKey t, t)]
    ∧ cloneDeep t = t
    ∧ (documentReceived (readySwap m r1) doc opts).cacheWrites =
        (documentReceived (readySwap m r2) doc opts).cacheWrites
    ∧ (documentReceived m doc optsF).cacheWrites = [] := by
  have hc : opts.cache.getD true = true := by
    cases hb : opts.cache with
    | none => rfl
    | some b =>
      cases b with
      | false => exact absurd hb hcache
      | true => rfl
  rw [cloneDeep_eq] at hvalid
  have hw : ∀ r, (documentReceived (readySwap m r) doc opts).cacheWrites =
      (if m.coreHasCache && opts.cache.getD true && opts.fields.isNone then
        modelCacheSetWrites m.cacheDirector (cloneDeep t) else []) := by
    intro r
    simp only [documentReceived, retrievedStage_readySwap, hhook]
    rfl
  refine ⟨?_, cloneDeep_eq t, ?_, ?_⟩
  · simp [documentReceived, hhook, hc, hfields, hcore, hdir,
      modelCacheSetWrites, hvalid, cloneDeep_eq]
  · rw [hw r1, hw r2]
  · simp [documentReceived, hhook, hfs]

/-- C7 witness: the hookless cached model `mCache` on the document
`docW`, default options, a projected option set, and two different
`ready` hooks. -/
theorem documentReceived_cache_write_witness :
    (documentReceived mCache docW {}).cacheWrites = [("key", docW)]
    ∧ cloneDeep docW = docW
    ∧ (documentReceived (readySwap mCache none) docW {}).cacheWrites =
        (documentReceived
          (readySwap mCache (some fun _ => .error (.hookFailure "mutate")))
          docW {}).cacheWrites
    ∧ (documentReceived mCache docW { fields := some ["x"] }).cacheWrites = [] :=
  documentReceived_cache_write mCache dirW docW docW {} { fields := some ["x"] }
    ["x"] none (some fun _ => .error (.hookFailure "mutate"))
    rfl rfl (by simp) rfl rfl rfl rfl

/-- C10: whether a document-received run is treated as partial is decided
solely by the presence of the `fields` option: a call passing
`partial: true` but no `fields` projection still writes to the cache and
wraps with the partial flag `false`; any call with `fields` set skips the
cache write and wraps with the partial flag `true`; and the whole run is
unchanged when only the (defaulted, never consulted) `partial` option
differs. -/
theorem documentReceived_fields_projection (m : Model) (dir : CacheDirector)
    (doc t : JsonVal) (optsB : QueryOptions) (fsB : List String)
    (c : Option Bool) (b1 b2 : Option Bool) (f : Option (List String))
    (hcore : m.coreHasCache = true)
    (hdir : m.cacheDirector = some dir)
    (hhook : retrievedStage m doc = .ok t)
    (hvalid : dir.valid (cloneDeep t) = true)
    (hfB : optsB.fields = some fsB) :
    (documentReceived m doc ⟨none, some true, none⟩).cacheWrites =
      [(dir.buildKey t, t)]
    ∧ (documentReceived m doc ⟨none, some true, none⟩).wrapArgs =
        some (t, false, false)
    ∧ (documentReceived m doc optsB).cacheWrites = []
    ∧ (documentReceived m doc optsB).wrapArgs = some (t, false, true)
    ∧ documentReceived m doc ⟨c, b1, f⟩ = documentReceived m doc ⟨c, b2, f⟩ := by
  rw [cloneDeep_eq] at hvalid
  refine ⟨?_, ?_, ?_, ?_, rfl⟩
  · simp [documentReceived, hhook, hcore, hdir, modelCacheSetWrites, hvalid,
      cloneDeep_eq]
  · simp [documentReceived, hhook]
  · simp [documentReceived, hhook, hfB]
  · simp [documentReceived, hhook, hfB]

/-- C10 witness: the cached model `mCache` on `docW`, with
`partial: true` but no projection, and with a `fields` projection. -/
theorem documentReceived_fields_projection_witness :
    (documentReceived mCache docW ⟨none, some true, none⟩).cacheWrites =
      [("key", docW)]
    ∧ (documentReceived mCache docW ⟨none, some true, none⟩).wrapArgs =
        some (docW, false, false)
    ∧ (documentReceived mCache docW { fields := some ["x"] }).cacheWrites = []
    ∧ (documentReceived mCache docW { fields := some ["x"] }).wrapArgs =
        some (docW, false, true)
    ∧ documentReceived mCache docW ⟨none, some false, none⟩ =
        documentReceived mCache docW ⟨none, some true, none⟩ :=
  documentReceived_fields_projection mCache dirW docW docW
    { fields := some ["x"] } ["x"] none (some false) (some true) none
    rfl rfl rfl rfl rfl

/-- C9: over the in-process map cache, for a model with a director whose
query key for the conditions equals its document key for the stored
document, `set` followed by `get` returns a value equal to the stored
document; for a model without a director, `set` resolves with the input
unchanged and `get` resolves with the empty result, whatever the
underlying cache contains. -/
theorem modelCache_roundtrip (dir : CacheDirector) (st st2 : MemCache)
    (doc conds d2 c2 : JsonVal)
    (h1 : dir.valid doc = true)
    (h2 : dir.validQuery conds = true)
    (h3 : dir.buildQueryKey conds = dir.buildKey doc) :
    modelCacheGet (some dir) (modelCacheSet (some dir) st doc).1 conds = some doc
    ∧ modelCacheSet none st2 d2 = (st2, d2)
    ∧ modelCacheGet none st2 c2 = none := by
  refine ⟨?_, rfl, rfl⟩
  simp [modelCacheSet, modelCacheGet, h1, h2, h3, memSet, memGet]

/-- C9 witness: the constant-key director `dirW`, an empty map, and (for
the directorless half) a nonempty underlying map. -/
theorem modelCache_roundtrip_witness :
    modelCacheGet (some dirW) (modelCacheSet (some dirW) [] (.str "d")).1
      (.str "q") = some (.str "d")
    ∧ modelCacheSet none [("junk", .null)] (.num 7) = ([("junk", .null)], .num 7)
    ∧ modelCacheGet none [("junk", .null)] .null = none :=
  modelCache_roundtrip dirW [] [("junk", .null)] (.str "d") (.str "q")
    (.num 7) .null rfl rfl rfl

end Iridium
